import Mathlib

/-!
Verification of the idor-scan scan-execution engine against its design
specification.

The Go source is shallowly embedded below.  Strings are modelled as lists of
characters (`Str`); Go `len` on a response body is modelled as list length
(byte = character for the ASCII data these functions manipulate).  Go maps
are modelled as association lists with Go-map assignment semantics
(`insertReplace`: later writes to the same key overwrite the earlier value)
and Go-map indexing semantics (`lookupS`).  Network I/O (`http.Client.Do`)
and the fallibility of `http.NewRequest` are abstracted as explicit oracle
parameters, so every scan function is a pure function of its oracles.
Wall-clock timestamps (`time.Now()`) carried by findings are omitted from
the `Finding` record, and the fixed rate-limiting sleeps are not modelled:
neither influences which findings are produced.
-/

/-- Strings as lists of characters. -/
abbrev Str := List Char

/-- Literal string to `Str`. -/
def strL (s : String) : Str := s.data

/-- Go map indexing `m[k]` for a map modelled as an association list:
the first binding of the key, if any. -/
def lookupS {β : Type} (k : Str) : List (Str × β) → Option β
  | [] => none
  | (k2, v) :: rest => if k2 = k then some v else lookupS k rest

/-- Go map assignment `m[k] = v`: overwrite the binding of `k` if present,
otherwise append it. -/
def insertReplace {β : Type} (m : List (Str × β)) (k : Str) (v : β) :
    List (Str × β) :=
  match m with
  | [] => [(k, v)]
  | (k2, v2) :: rest =>
    if k2 = k then (k, v) :: rest else (k2, v2) :: insertReplace rest k v

/-- Go `strings.Contains(s, pat)`. -/
def strContains (s pat : Str) : Bool :=
  match s with
  | [] => pat.isEmpty
  | _ :: rest => pat.isPrefixOf s || strContains rest pat

/-- Fuelled worker for `replaceAll`; the fuel is consumed one unit per
scanning step, so `s.length` units always suffice. -/
def replaceAllAux (pat rep : Str) : Nat → Str → Str
  | 0, s => s
  | _ + 1, [] => []
  | fuel + 1, c :: rest =>
    if pat ≠ [] ∧ pat.isPrefixOf (c :: rest) then
      rep ++ replaceAllAux pat rep fuel ((c :: rest).drop pat.length)
    else
      c :: replaceAllAux pat rep fuel rest

/-- Go `strings.ReplaceAll(s, pat, rep)`: leftmost non-overlapping
replacement of every occurrence.  Every call site in this code base passes a
non-empty pattern (each pattern contains a literal brace, colon, slash,
equals sign or quote), so Go's insert-everywhere behaviour for an empty
pattern is not modelled: an empty pattern leaves the string unchanged. -/
def replaceAll (pat rep s : Str) : Str :=
  replaceAllAux pat rep s.length s

/-- Go `strings.HasSuffix` / `strings.TrimSuffix` combined as used by
`BuildSwappedURL`: drop the suffix when present, else leave unchanged. -/
def trimSuffix (s suffix : Str) : Str :=
  if suffix.isSuffixOf s then s.take (s.length - suffix.length) else s

/-- Go `strings.ToLower` restricted to the ASCII header names it is applied
to. -/
def toLowerStr (s : Str) : Str := s.map Char.toLower

/-- The characters Go's `textproto` accepts in a header field name
(`validHeaderFieldByte`): ASCII letters, digits, and the token symbols. -/
def validHeaderFieldByte (c : Char) : Bool :=
  (c.isAlpha && c.toNat < 128) || c.isDigit ||
    [Char.ofNat 33, Char.ofNat 35, Char.ofNat 36, Char.ofNat 37,
     Char.ofNat 38, Char.ofNat 39, Char.ofNat 42, Char.ofNat 43,
     Char.ofNat 45, Char.ofNat 46, Char.ofNat 94, Char.ofNat 95,
     Char.ofNat 96, Char.ofNat 124, Char.ofNat 126].contains c

/-- Case-normalisation pass of Go's `textproto.CanonicalMIMEHeaderKey`:
upper-case the first character and every character following a hyphen,
lower-case the rest. -/
def canonChars : Bool → Str → Str
  | _, [] => []
  | upper, c :: rest =>
    let c2 := if upper then c.toUpper else c.toLower
    c2 :: canonChars (c2 = '-') rest

/-- Go `textproto.CanonicalMIMEHeaderKey` as used by `http.Header.Set`:
canonicalise the case when every character is a valid header-field byte,
otherwise return the key unchanged. -/
def canonicalMIMEHeaderKey (s : Str) : Str :=
  if s.all validHeaderFieldByte then canonChars true s else s

/-- `http.Header.Set k v`: store `v` under the canonical form of `k`
(replacing any previous value). -/
def headerSet (h : List (Str × Str)) (k v : Str) : List (Str × Str) :=
  insertReplace h (canonicalMIMEHeaderKey k) v

/-- `http.Header.Get k`: read the value stored under the canonical form of
`k`. -/
def headerGet (h : List (Str × Str)) (k : Str) : Option Str :=
  lookupS (canonicalMIMEHeaderKey k) h

/-- `User` (cmd/types.go): a named identity with auth headers and
identifier parameters. -/
structure User where
  name : Str
  headers : List (Str × Str)
  params : List (Str × Str)
deriving DecidableEq

/-- `APIRequest` (cmd/types.go): one request template. -/
structure APIRequest where
  method : Str
  url : Str
  headers : List (Str × Str)
  body : Str
  params : List (Str × Str)
deriving DecidableEq

/-- `Finding` (cmd/types.go), without the wall-clock `Timestamp` field. -/
structure Finding where
  severity : Str
  endpoint : Str
  method : Str
  description : Str
  evidence : Str
deriving DecidableEq

/-- `Baseline` (baseline file): recorded status code and body size of an
identity's legitimate response.  (The declared `BodyHash` field is never
written or read by the scanner and is omitted.) -/
structure Baseline where
  statusCode : Int
  bodySize : Nat
deriving DecidableEq

/-- `ScanJob` (cmd/concurrent.go): one cross-identity test for the worker
pool. -/
structure ScanJob where
  request : APIRequest
  attacker : User
  victim : User
  baseline : Baseline
deriving DecidableEq

/-- A concrete HTTP request as materialised by the request builders. -/
structure HttpRequest where
  method : Str
  url : Str
  body : Str
  headers : List (Str × Str)
deriving DecidableEq

/-- An HTTP response as observed by the scanner: status code and body. -/
structure Response where
  statusCode : Int
  body : Str
deriving DecidableEq

/-- `abs` (baseline file). -/
def goAbs (x : Int) : Int := if x < 0 then -x else x

/-- Decimal rendering of an `Int`, for the `%d` verbs of the evidence
strings. -/
def intStr (i : Int) : Str := (toString i).data

/-- Decimal rendering of a `Nat`, for the `%d` verbs of the evidence
strings. -/
def natStr (n : Nat) : Str := (toString n).data

/-- The endpoint key `fmt.Sprintf("%s %s", req.Method, req.URL)` used for
the baseline map. -/
def endpointOf (req : APIRequest) : Str := req.method ++ strL " " ++ req.url

/-- `BaselineMap` (baseline file): endpoint, then user name, to baseline. -/
abbrev BaselineMap := List (Str × List (Str × Baseline))

/-- Nested Go-map read `baselines[endpoint][name]` with the zero map for a
missing endpoint, so a missing endpoint or name yields `none`. -/
def lookupBaseline (bm : BaselineMap) (endpoint name : Str) :
    Option Baseline :=
  (lookupS endpoint bm).bind fun inner => lookupS name inner

/-- The result of `http.Client.Do`, abstracted: `none` is a transport
error, `some` a completed exchange. -/
abbrev ExecOracle := HttpRequest → Option Response

/-- Whether `http.NewRequest(method, url, body)` succeeds, abstracted as a
predicate on method and URL (the body, a `strings.Reader`, never causes a
failure). -/
abbrev NewRequestOk := Str → Str → Bool

/-- `buildRequestWithSwap`, abstracted: this builder is called by
`testCrossUserWithBaseline` and `executeScanJob` but its definition is not
part of the sources at hand, so the scan functions take it as a parameter
(`none` models a failed request build). -/
abbrev SwapBuilder := APIRequest → User → User → Option HttpRequest

/-- The parameter-substitution loop shared verbatim by `buildRequest`
(cmd/types.go), strategy 1 of `BuildSwappedURL` and of `BuildSwappedBody`
(swapper file): for every name/value pair, replace every occurrence of
the placeholders `\x7bname\x7d`, `:name` and `\x7b\x7bname\x7d\x7d` by the
value. -/
def substStep (acc : Str) (kv : Str × Str) : Str :=
  let acc1 := replaceAll (strL "\x7b" ++ kv.1 ++ strL "\x7d") kv.2 acc
  let acc2 := replaceAll (strL ":" ++ kv.1) kv.2 acc1
  replaceAll (strL "\x7b\x7b" ++ kv.1 ++ strL "\x7d\x7d") kv.2 acc2

def substPlaceholders (params : List (Str × Str)) (s : Str) : Str :=
  params.foldl substStep s

/-- One iteration of strategy 2 of `BuildSwappedURL` (swapper file): when
the attacker's parameter key also exists in the victim's map with a
different value, rewrite the attacker's literal value into the victim's as
a path segment, a path suffix, or a query value. -/
def swapStep (victimParams : List (Str × Str)) (result : Str)
    (kv : Str × Str) : Str :=
  match lookupS kv.1 victimParams with
  | none => result
  | some victimVal =>
    if kv.2 ≠ victimVal then
      let r1 := replaceAll (strL "/" ++ kv.2 ++ strL "/")
        (strL "/" ++ victimVal ++ strL "/") result
      let r2 := replaceAll (strL "/" ++ kv.2 ++ strL "?")
        (strL "/" ++ victimVal ++ strL "?") r1
      let r3 :=
        if (strL "/" ++ kv.2).isSuffixOf r2 then
          trimSuffix r2 (strL "/" ++ kv.2) ++ strL "/" ++ victimVal
        else r2
      let r4 := replaceAll (strL "=" ++ kv.2 ++ strL "&")
        (strL "=" ++ victimVal ++ strL "&") r3
      if (strL "=" ++ kv.2).isSuffixOf r4 then
        trimSuffix r4 (strL "=" ++ kv.2) ++ strL "=" ++ victimVal
      else r4
    else result

/-- Strategy 2 of `BuildSwappedURL` in full: the loop over the attacker's
parameters.  (Go iterates the map in unspecified order; the list order
stands in for one such order.) -/
def strategy2URL (attackerParams victimParams : List (Str × Str))
    (url : Str) : Str :=
  attackerParams.foldl (swapStep victimParams) url

/-- `BuildSwappedURL` (swapper file): strategy 1 (victim placeholders)
followed by strategy 2 (victim literals replacing attacker literals). -/
def BuildSwappedURL (originalURL : Str)
    (attackerParams victimParams : List (Str × Str)) : Str :=
  strategy2URL attackerParams victimParams
    (substPlaceholders victimParams originalURL)

/-- The header-merging loops of `buildRequest` (cmd/types.go): set every
identity header, then every template header whose raw key is absent from
the identity's header map. -/
def buildHeaders (user : User) (tmplHeaders : List (Str × Str)) :
    List (Str × Str) :=
  let h0 := user.headers.foldl (fun h kv => headerSet h kv.1 kv.2) []
  tmplHeaders.foldl
    (fun h kv =>
      if (lookupS kv.1 user.headers).isSome then h
      else headerSet h kv.1 kv.2)
    h0

/-- `buildRequest` (cmd/types.go): substitute the parameter map into URL
and body, then construct the request carrying the merged headers. -/
def buildRequest (reqOk : NewRequestOk) (req : APIRequest) (user : User)
    (params : List (Str × Str)) : Option HttpRequest :=
  let url := substPlaceholders params req.url
  let body := substPlaceholders params req.body
  if reqOk req.method url then
    some { method := req.method, url := url, body := body,
           headers := buildHeaders user req.headers }
  else none

/-- The auth-related keywords stripped by `buildRequestNoAuth`. -/
def authKeywords : List Str :=
  [strL "auth", strL "cookie", strL "session", strL "token",
   strL "x-api-key"]

/-- `buildRequestNoAuth` (cmd/types.go): the template request with every
header whose lower-cased name contains an auth keyword removed. -/
def buildRequestNoAuth (reqOk : NewRequestOk) (req : APIRequest) :
    Option HttpRequest :=
  if reqOk req.method req.url then
    let h := req.headers.foldl
      (fun h kv =>
        if authKeywords.any (fun kw => strContains (toLowerStr kv.1) kw)
        then h
        else headerSet h kv.1 kv.2)
      []
    some { method := req.method, url := req.url, body := req.body,
           headers := h }
  else none

/-- `testNoAuth` (cmd/types.go): build the stripped request and execute it;
a HIGH finding when the status is 200, the body exceeds 50 bytes, and the
body text contains neither "unauthorized" nor "forbidden". -/
def testNoAuth (reqOk : NewRequestOk) (exec : ExecOracle)
    (req : APIRequest) : Option Finding :=
  (buildRequestNoAuth reqOk req).bind fun r =>
    (exec r).bind fun resp =>
      if resp.statusCode = 200 ∧ 50 < resp.body.length then
        if strContains resp.body (strL "unauthorized") ||
            strContains resp.body (strL "forbidden") then none
        else
          some { severity := strL "HIGH", endpoint := req.url,
                 method := req.method,
                 description :=
                   strL "Endpoint accessible without authentication",
                 evidence :=
                   strL "Status: " ++ intStr resp.statusCode ++
                   strL ", Response size: " ++ natStr resp.body.length ++
                   strL " bytes" }
      else none

/-- `testCrossUserAccess` (cmd/types.go): the plain cross-user test of
`Run`, flagging any 200/201 response as CRITICAL. -/
def testCrossUserAccess (reqOk : NewRequestOk) (exec : ExecOracle)
    (req : APIRequest) (attacker victim : User) : Option Finding :=
  (buildRequest reqOk req attacker victim.params).bind fun r =>
    (exec r).bind fun resp =>
      if resp.statusCode = 200 ∨ resp.statusCode = 201 then
        some { severity := strL "CRITICAL", endpoint := req.url,
               method := req.method,
               description :=
                 strL "User '" ++ attacker.name ++
                 strL "' accessed resources belonging to '" ++
                 victim.name ++ strL "'",
               evidence :=
                 strL "Status: " ++ intStr resp.statusCode ++
                 strL ", Size: " ++ natStr resp.body.length ++
                 strL " bytes (expected 403/404)" }
      else none

/-- The baseline-compared classification shared, with identical text, by
`testCrossUserWithBaseline` (baseline file) and `executeScanJob`
(cmd/concurrent.go): on a 200/201 response, CRITICAL when the body size is
within 50 bytes of a positive victim baseline, HIGH when the body exceeds
50 bytes, otherwise no finding. -/
def classifyBaseline (req : APIRequest) (attacker victim : User)
    (vb : Baseline) (resp : Response) : Option Finding :=
  if resp.statusCode = 200 ∨ resp.statusCode = 201 then
    let sizeDiff := goAbs ((resp.body.length : Int) - (vb.bodySize : Int))
    if sizeDiff < 50 ∧ 0 < vb.bodySize then
      some { severity := strL "CRITICAL", endpoint := req.url,
             method := req.method,
             description :=
               strL "User '" ++ attacker.name ++ strL "' accessed '" ++
               victim.name ++
               strL "'s data (response matches victim's baseline)",
             evidence :=
               strL "Status: " ++ intStr resp.statusCode ++
               strL ", Size: " ++ natStr resp.body.length ++
               strL " bytes (victim baseline: " ++ natStr vb.bodySize ++
               strL " bytes)" }
    else if 50 < resp.body.length then
      some { severity := strL "HIGH", endpoint := req.url,
             method := req.method,
             description :=
               strL "User '" ++ attacker.name ++
               strL "' got 200 accessing '" ++ victim.name ++
               strL "'s resource (size differs from baseline)",
             evidence :=
               strL "Status: " ++ intStr resp.statusCode ++
               strL ", Size: " ++ natStr resp.body.length ++
               strL " bytes (victim baseline: " ++ natStr vb.bodySize ++
               strL " bytes)" }
    else none
  else none

/-- Build, execute and classify one cross-identity test against a given
victim baseline: the part of `testCrossUserWithBaseline` after the
baseline lookup, which is also the whole of `executeScanJob`. -/
def afterBaseline (buildSwap : SwapBuilder) (exec : ExecOracle)
    (req : APIRequest) (attacker victim : User) (vb : Baseline) :
    Option Finding :=
  (buildSwap req attacker victim).bind fun r =>
    (exec r).bind fun resp => classifyBaseline req attacker victim vb resp

/-- `testCrossUserWithBaseline` (baseline file): look up the victim's
baseline (no finding when absent), then build, execute and classify. -/
def testCrossUserWithBaseline (buildSwap : SwapBuilder)
    (exec : ExecOracle) (req : APIRequest) (attacker victim : User)
    (baselines : BaselineMap) : Option Finding :=
  (lookupBaseline baselines (endpointOf req) victim.name).bind fun vb =>
    afterBaseline buildSwap exec req attacker victim vb

/-- `executeScanJob` (cmd/concurrent.go): one worker step, classifying
against the baseline carried by the job. -/
def executeScanJob (buildSwap : SwapBuilder) (exec : ExecOracle)
    (job : ScanJob) : Option Finding :=
  afterBaseline buildSwap exec job.request job.attacker job.victim
    job.baseline

/-- The inner loop of `CaptureBaselines` (baseline file) for one template:
each identity requests its own resource; failures to build or execute
leave that identity without an entry. -/
def captureInner (reqOk : NewRequestOk) (exec : ExecOracle)
    (req : APIRequest) (users : List User) : List (Str × Baseline) :=
  users.foldl
    (fun acc user =>
      match buildRequest reqOk req user user.params with
      | none => acc
      | some r =>
        match exec r with
        | none => acc
        | some resp =>
          insertReplace acc user.name
            { statusCode := resp.statusCode,
              bodySize := resp.body.length })
    []

/-- `CaptureBaselines` (baseline file): one inner map per template keyed by
its endpoint string. -/
def captureBaselines (reqOk : NewRequestOk) (exec : ExecOracle)
    (users : List User) (requests : List APIRequest) : BaselineMap :=
  requests.foldl
    (fun acc req =>
      insertReplace acc (endpointOf req) (captureInner reqOk exec req users))
    []

/-- The ordered-pair enumeration shared by `RunWithBaseline` and the
queueing loop of `RunWithBaselineConcurrent`: every (attacker, victim)
pair of identities whose names differ, attacker-major. -/
def seqPairs (users : List User) : List (User × User) :=
  users.flatMap fun a =>
    (users.filter fun v => ¬(a.name = v.name)).map fun v => (a, v)

/-- The cross-identity findings one template contributes in
`RunWithBaseline`. -/
def crossFindingsSeq (buildSwap : SwapBuilder) (exec : ExecOracle)
    (baselines : BaselineMap) (users : List User) (req : APIRequest) :
    List Finding :=
  (seqPairs users).filterMap fun p =>
    testCrossUserWithBaseline buildSwap exec req p.1 p.2 baselines

/-- `RunWithBaseline` (baseline file): capture baselines, then for each
template run every cross-identity test followed by the no-auth test,
appending each finding produced. -/
def RunWithBaseline (reqOk : NewRequestOk) (buildSwap : SwapBuilder)
    (exec : ExecOracle) (users : List User)
    (requests : List APIRequest) : List Finding :=
  let baselines := captureBaselines reqOk exec users requests
  requests.flatMap fun req =>
    crossFindingsSeq buildSwap exec baselines users req ++
      (testNoAuth reqOk exec req).toList

/-- The jobs one template contributes to the concurrent queue
(cmd/concurrent.go): the name-distinct pairs whose victim has a captured
baseline, each job carrying that baseline. -/
def concJobsFor (users : List User) (baselines : BaselineMap)
    (req : APIRequest) : List ScanJob :=
  (seqPairs users).filterMap fun p =>
    (lookupBaseline baselines (endpointOf req) p.2.name).map fun b =>
      { request := req, attacker := p.1, victim := p.2, baseline := b }

/-- The full job queue of `RunWithBaselineConcurrent`, in submission
order. -/
def concurrentJobs (users : List User) (requests : List APIRequest)
    (baselines : BaselineMap) : List ScanJob :=
  requests.flatMap (concJobsFor users baselines)

/-- `RunWithBaselineConcurrent` (cmd/concurrent.go): capture baselines,
drain the job queue through `executeScanJob`, then run the no-auth tests
sequentially.  The worker count governs only the scheduling of jobs across
workers, hence only the completion order of results; the model executes
the jobs in queue-submission order. -/
def RunWithBaselineConcurrent (workers : Int) (reqOk : NewRequestOk)
    (buildSwap : SwapBuilder) (exec : ExecOracle) (users : List User)
    (requests : List APIRequest) : List Finding :=
  let _ := workers
  let baselines := captureBaselines reqOk exec users requests
  (concurrentJobs users requests baselines).filterMap
      (executeScanJob buildSwap exec) ++
    requests.filterMap (testNoAuth reqOk exec)

/-- The index-distinct pair enumeration of `Run` (cmd/types.go). -/
def seqPairsIdx (users : List User) : List (User × User) :=
  users.enum.flatMap fun a =>
    (users.enum.filter fun b => ¬(a.1 = b.1)).map fun b => (a.2, b.2)

/-- `Run` (cmd/types.go): the plain scan without baselines. -/
def Run (reqOk : NewRequestOk) (exec : ExecOracle) (users : List User)
    (requests : List APIRequest) : List Finding :=
  requests.flatMap fun req =>
    ((seqPairsIdx users).filterMap fun p =>
        testCrossUserAccess reqOk exec req p.1 p.2) ++
      (testNoAuth reqOk exec req).toList

/-! ### Helper lemmas -/

lemma goAbs_eq_natAbs (x : Int) : goAbs x = (x.natAbs : Int) := by
  unfold goAbs
  omega

lemma mem_seqPairs {users : List User} {p : User × User}
    (hp : p ∈ seqPairs users) :
    p.1 ∈ users ∧ p.2 ∈ users ∧ p.1.name ≠ p.2.name := by
  simp only [seqPairs, List.mem_flatMap, List.mem_map, List.mem_filter] at hp
  obtain ⟨a, ha, v, ⟨hv, hne⟩, rfl⟩ := hp
  refine ⟨ha, hv, ?_⟩
  simpa using hne

/-! ### C1 -/

/-- C1: severity assignment for a baseline-compared cross-identity test is
the deterministic function of (statusCode, responseBodySize,
baselineBodySize) stated by the spec: CRITICAL on a 200/201 response whose
size is within 50 bytes of a positive victim baseline, otherwise HIGH on a
200/201 response larger than 50 bytes, otherwise no finding; in
particular a 403 never produces a finding and a zero-size baseline can
yield at most HIGH. -/
theorem C1_baseline_severity_table :
    ∀ (req : APIRequest) (attacker victim : User) (vb : Baseline)
      (resp : Response),
      ((classifyBaseline req attacker victim vb resp).map Finding.severity =
        (if (resp.statusCode = 200 ∨ resp.statusCode = 201) ∧
            ((resp.body.length : Int) - (vb.bodySize : Int)).natAbs < 50 ∧
            0 < vb.bodySize
         then some (strL "CRITICAL")
         else if (resp.statusCode = 200 ∨ resp.statusCode = 201) ∧
            50 < resp.body.length
         then some (strL "HIGH")
         else none)) ∧
      ((classifyBaseline req attacker victim vb
          { statusCode := 403, body := resp.body }).map Finding.severity =
        none) ∧
      ((classifyBaseline req attacker victim
          { statusCode := vb.statusCode, bodySize := 0 }
          { statusCode := 200, body := resp.body }).map Finding.severity =
        (if 50 < resp.body.length then some (strL "HIGH") else none)) := by
  intro req attacker victim vb resp
  have key : ∀ (x : Int), (((x.natAbs : Nat) : Int) < 50 ↔ x.natAbs < 50) :=
    fun x => by omega
  refine ⟨?_, ?_, ?_⟩ <;>
    · simp only [classifyBaseline, goAbs_eq_natAbs, key]
      split_ifs
      all_goals try rfl
      all_goals try (exfalso; omega)
      all_goals simp_all

/-! ### C2 -/

/-- C2: the no-auth test emits a finding (necessarily of severity HIGH)
exactly when the stripped request could be built, the exchange completed,
the status is exactly 200, the body exceeds 50 bytes, and the body text
contains neither the literal substring "unauthorized" nor the literal
substring "forbidden"; any transport error or failed request build yields
no finding. -/
theorem C2_noauth_characterisation :
    ∀ (reqOk : NewRequestOk) (exec : ExecOracle) (req : APIRequest),
      ((testNoAuth reqOk exec req).isSome ↔
        ∃ r resp, buildRequestNoAuth reqOk req = some r ∧
          exec r = some resp ∧ resp.statusCode = 200 ∧
          50 < resp.body.length ∧
          strContains resp.body (strL "unauthorized") = false ∧
          strContains resp.body (strL "forbidden") = false) ∧
      (testNoAuth reqOk exec req).all
          (fun f => f.severity == strL "HIGH") = true := by
  intro reqOk exec req
  unfold testNoAuth
  cases hb : buildRequestNoAuth reqOk req with
  | none => simp
  | some r =>
    simp only [Option.some_bind]
    cases he : exec r with
    | none => simp [he]
    | some resp =>
      simp only [he, Option.some_bind]
      by_cases h1 : resp.statusCode = 200 ∧ 50 < resp.body.length
      · by_cases h2 :
          (strContains resp.body (strL "unauthorized") ||
            strContains resp.body (strL "forbidden")) = true
        · simp only [if_pos h1, if_pos h2]
          refine ⟨⟨fun h => absurd h (by simp), ?_⟩, by simp⟩
          rintro ⟨r2, resp2, hr2, hresp2, _, _, hu, hf⟩
          rw [Option.some.injEq] at hr2
          subst hr2
          rw [he, Option.some.injEq] at hresp2
          subst hresp2
          simp [hu, hf] at h2
        · simp only [if_pos h1, if_neg h2]
          rw [Bool.or_eq_true, not_or, Bool.not_eq_true,
            Bool.not_eq_true] at h2
          refine ⟨iff_of_true rfl
            ⟨r, resp, rfl, he, h1.1, h1.2, h2.1, h2.2⟩, by simp [Option.all]⟩
      · simp only [if_neg h1]
        refine ⟨⟨fun h => absurd h (by simp), ?_⟩, by simp⟩
        rintro ⟨r2, resp2, hr2, hresp2, hs, hlen, _, _⟩
        rw [Option.some.injEq] at hr2
        subst hr2
        rw [he, Option.some.injEq] at hresp2
        subst hresp2
        exact (h1 ⟨hs, hlen⟩).elim

/-! ### C3 -/

/-- C3: no self-pair is ever tested: every ordered pair the sequential
path enumerates, and every job the concurrent path enqueues, has an
attacker name different from the victim name. -/
theorem C3_no_self_pairs :
    ∀ (users : List User) (requests : List APIRequest)
      (baselines : BaselineMap),
      (seqPairs users).all (fun p => !(p.1.name == p.2.name)) = true ∧
      (concurrentJobs users requests baselines).all
          (fun j => !(j.attacker.name == j.victim.name)) = true := by
  intro users requests baselines
  constructor
  · rw [List.all_eq_true]
    intro p hp
    have := (mem_seqPairs hp).2.2
    simpa using this
  · rw [List.all_eq_true]
    intro j hj
    simp only [concurrentJobs, concJobsFor, List.mem_flatMap,
      List.mem_filterMap, Option.map_eq_some'] at hj
    obtain ⟨req, _, p, hp, b, _, rfl⟩ := hj
    have := (mem_seqPairs hp).2.2
    simpa using this

/-! ### C4 -/

/-- C4: every job enqueued by the concurrent path carries exactly the
baseline recorded for its (endpoint, victim name) pair, and a combination
whose victim lacks a baseline produces no finding in the sequential path
(and, by the first part, no job in the concurrent path). -/
theorem C4_baseline_gating :
    ∀ (users : List User) (requests : List APIRequest)
      (baselines : BaselineMap) (buildSwap : SwapBuilder)
      (exec : ExecOracle),
      (∀ job ∈ concurrentJobs users requests baselines,
        lookupBaseline baselines (endpointOf job.request) job.victim.name =
          some job.baseline) ∧
      (∀ (req : APIRequest) (attacker victim : User),
        lookupBaseline baselines (endpointOf req) victim.name = none →
        testCrossUserWithBaseline buildSwap exec req attacker victim
          baselines = none) := by
  intro users requests baselines buildSwap exec
  constructor
  · intro job hj
    simp only [concurrentJobs, concJobsFor, List.mem_flatMap,
      List.mem_filterMap, Option.map_eq_some'] at hj
    obtain ⟨req, _, p, _, b, hb, rfl⟩ := hj
    exact hb
  · intro req attacker victim h
    unfold testCrossUserWithBaseline
    rw [h, Option.none_bind]

/-- Fixture identity used by the concrete witnesses. -/
def wAlice : User := { name := strL "alice", headers := [], params := [] }

/-- Fixture identity used by the concrete witnesses. -/
def wBob : User := { name := strL "bob", headers := [], params := [] }

/-- Fixture template used by the concrete witnesses. -/
def wReq : APIRequest :=
  { method := strL "GET", url := strL "/u", headers := [], body := [],
    params := [] }

/-- Fixture baseline used by the concrete witnesses. -/
def wBase : Baseline := { statusCode := 200, bodySize := 100 }

/-- Fixture baseline map holding a baseline only for bob on `wReq`. -/
def wBaselines : BaselineMap :=
  [(endpointOf wReq, [(strL "bob", wBase)])]

/-- Witness for C4 at a concrete scan: the job alice attacks bob carries
bob's recorded baseline, and the pair attacking alice (who has no
baseline) produces no finding. -/
theorem C4_baseline_gating_witness :
    lookupBaseline wBaselines
        (endpointOf (ScanJob.request
          { request := wReq, attacker := wAlice, victim := wBob,
            baseline := wBase }))
        (ScanJob.victim
          { request := wReq, attacker := wAlice, victim := wBob,
            baseline := wBase }).name =
      some wBase ∧
    testCrossUserWithBaseline (fun _ _ _ => none) (fun _ => none) wReq wBob
        wAlice wBaselines = none := by
  refine ⟨(C4_baseline_gating [wAlice, wBob] [wReq] wBaselines
      (fun _ _ _ => none) (fun _ => none)).1
      { request := wReq, attacker := wAlice, victim := wBob,
        baseline := wBase } (by decide),
    (C4_baseline_gating [wAlice, wBob] [wReq] wBaselines
      (fun _ _ _ => none) (fun _ => none)).2 wReq wBob wAlice (by decide)⟩

/-! ### C6 -/

/-- C6: strategy 2 of `BuildSwappedURL` is the identity on the URL whenever
the attacker's and victim's parameter maps agree on every key they share
(each attacker binding whose key the victim's map also holds carries the
victim's value). -/
theorem C6_literal_swap_noop :
    ∀ (url : Str) (attackerParams victimParams : List (Str × Str)),
      (∀ kv ∈ attackerParams,
        ∀ vv, lookupS kv.1 victimParams = some vv → kv.2 = vv) →
      strategy2URL attackerParams victimParams url = url := by
  intro url aps vps
  induction aps generalizing url with
  | nil => intro _; rfl
  | cons kv rest ih =>
    intro h
    have hstep : swapStep vps url kv = url := by
      unfold swapStep
      cases hl : lookupS kv.1 vps with
      | none => rfl
      | some vv =>
        have : kv.2 = vv := h kv (by simp) vv hl
        simp [this]
    have : strategy2URL (kv :: rest) vps url =
        strategy2URL rest vps (swapStep vps url kv) := rfl
    rw [this, hstep]
    exact ih _ fun kv2 hm => h kv2 (by simp [hm])

/-- Witness for C6 at a concrete URL and parameter maps sharing the key
`user_id` with equal values. -/
theorem C6_literal_swap_noop_witness :
    strategy2URL [(strL "user_id", strL "123")]
        [(strL "user_id", strL "123"), (strL "other", strL "9")]
        (strL "/api/users/123") =
      strL "/api/users/123" :=
  C6_literal_swap_noop (strL "/api/users/123")
    [(strL "user_id", strL "123")]
    [(strL "user_id", strL "123"), (strL "other", strL "9")]
    (by decide)

/-! ### C5 -/

/-- No placeholder token `\x7bname\x7d`, `:name` or
`\x7b\x7bname\x7d\x7d` of any parameter of the map occurs in the
string. -/
def placeholderFree (params : List (Str × Str)) (s : Str) : Bool :=
  params.all fun kv =>
    !(strContains s (strL "\x7b" ++ kv.1 ++ strL "\x7d")) &&
    !(strContains s (strL ":" ++ kv.1)) &&
    !(strContains s (strL "\x7b\x7b" ++ kv.1 ++ strL "\x7d\x7d"))

lemma replaceAllAux_of_not_contains (pat rep : Str) :
    ∀ (fuel : Nat) (s : Str), s.length ≤ fuel →
      strContains s pat = false → replaceAllAux pat rep fuel s = s := by
  intro fuel
  induction fuel with
  | zero => intro s _ _; rfl
  | succ n ih =>
    intro s hlen hc
    cases s with
    | nil => rfl
    | cons c rest =>
      unfold strContains at hc
      rw [Bool.or_eq_false_iff] at hc
      have hr : rest.length ≤ n := by
        simp only [List.length_cons] at hlen
        omega
      unfold replaceAllAux
      rw [if_neg (by simp [hc.1]), ih rest hr hc.2]

lemma replaceAll_of_not_contains (pat rep s : Str)
    (hc : strContains s pat = false) : replaceAll pat rep s = s :=
  replaceAllAux_of_not_contains pat rep s.length s le_rfl hc

lemma foldl_fixed {α β : Type} (f : α → β → α) (t : α) (l : List β)
    (h : ∀ b ∈ l, f t b = t) : l.foldl f t = t := by
  induction l with
  | nil => rfl
  | cons b rest ih =>
    rw [List.foldl_cons, h b (by simp)]
    exact ih fun b2 hm => h b2 (by simp [hm])

/-- C5 counterexample: with the single parameter `a ↦ "X:a"`, one
application to `":a"` yields `"X:a"` and a second application yields
`"XX:a"`, so placeholder substitution is not idempotent as claimed. -/
theorem C5_counterexample :
    substPlaceholders [(strL "a", strL "X:a")]
        (substPlaceholders [(strL "a", strL "X:a")] (strL ":a")) ≠
      substPlaceholders [(strL "a", strL "X:a")] (strL ":a") := by
  decide

/-- C5 amended: placeholder substitution is idempotent on every input
whose once-substituted form contains no remaining placeholder token of the
map — a second pass then leaves the string unchanged.  (Unrestricted
idempotence fails: a parameter value can itself introduce a token, see the
counterexample.) -/
theorem C5_idempotent_when_placeholder_free :
    ∀ (params : List (Str × Str)) (s : Str),
      placeholderFree params (substPlaceholders params s) = true →
      substPlaceholders params (substPlaceholders params s) =
        substPlaceholders params s := by
  intro params s hfree
  rw [placeholderFree, List.all_eq_true] at hfree
  rw [show substPlaceholders params (substPlaceholders params s) =
    List.foldl substStep (substPlaceholders params s) params from rfl]
  apply foldl_fixed
  intro kv hm
  have h3 := hfree kv hm
  rw [Bool.and_eq_true, Bool.and_eq_true] at h3
  obtain ⟨⟨h1, h2⟩, h4⟩ := h3
  rw [Bool.not_eq_true'] at h1 h2 h4
  simp only [substStep]
  rw [replaceAll_of_not_contains _ _ _ h1,
    replaceAll_of_not_contains _ _ _ h2,
    replaceAll_of_not_contains _ _ _ h4]

/-- Witness for C5 at a concrete map and string: substituting
`id ↦ "99"` into `"/users/\x7bid\x7d"` leaves no token, and the second
pass changes nothing. -/
theorem C5_idempotent_witness :
    placeholderFree [(strL "id", strL "99")]
        (substPlaceholders [(strL "id", strL "99")]
          (strL "/users/\x7bid\x7d")) = true ∧
    substPlaceholders [(strL "id", strL "99")]
        (substPlaceholders [(strL "id", strL "99")]
          (strL "/users/\x7bid\x7d")) =
      substPlaceholders [(strL "id", strL "99")]
        (strL "/users/\x7bid\x7d") :=
  ⟨by decide,
    C5_idempotent_when_placeholder_free [(strL "id", strL "99")]
      (strL "/users/\x7bid\x7d") (by decide)⟩

/-! ### C7 -/

lemma sum_map_const {α : Type} (l : List α) (c : Nat) :
    (l.map fun _ => c).sum = l.length * c := by
  induction l with
  | nil => simp
  | cons a t ih => simp [ih, Nat.succ_mul, Nat.add_comm]

lemma length_filterMap_eq_countP {α β : Type} (f : α → Option β)
    (l : List α) :
    (l.filterMap f).length = l.countP (fun a => (f a).isSome) := by
  induction l with
  | nil => rfl
  | cons a t ih =>
    cases h : f a <;>
      simp [List.filterMap_cons, h, List.countP_cons, ih]

lemma countP_eq_one_of_nodup {α : Type} [DecidableEq α] {l : List α}
    {x : α} (hnd : l.Nodup) (hx : x ∈ l) :
    l.countP (fun y => decide (x = y)) = 1 := by
  induction l with
  | nil => cases hx
  | cons a t ih =>
    rw [List.countP_cons]
    rcases List.mem_cons.mp hx with rfl | hmem
    · have hnot : x ∉ t := (List.nodup_cons.mp hnd).1
      have h0 : t.countP (fun y => decide (x = y)) = 0 := by
        rw [List.countP_eq_zero]
        intro y hy
        simp only [decide_eq_true_eq]
        exact fun hh => hnot (hh ▸ hy)
      simp [h0]
    · have hne : x ≠ a :=
        fun hh => (List.nodup_cons.mp hnd).1 (hh ▸ hmem)
      rw [ih (List.nodup_cons.mp hnd).2 hmem]
      simp [hne]

lemma countP_name_eq {users : List User} {a : User}
    (hnd : (users.map User.name).Nodup) (ha : a ∈ users) :
    users.countP (fun v => decide (a.name = v.name)) = 1 := by
  have h1 : (users.map User.name).countP (fun n => decide (a.name = n)) =
      users.countP (fun v => decide (a.name = v.name)) := by
    rw [List.countP_map]
    rfl
  rw [← h1]
  exact countP_eq_one_of_nodup hnd (List.mem_map_of_mem _ ha)

lemma seqPairs_length {users : List User}
    (hnd : (users.map User.name).Nodup) :
    (seqPairs users).length = users.length * (users.length - 1) := by
  rw [seqPairs, List.length_flatMap]
  have hmap : ∀ a ∈ users,
      (List.length ∘ fun a =>
        (users.filter fun v => ¬(a.name = v.name)).map fun v => (a, v)) a =
      users.length - 1 := by
    intro a ha
    simp only [Function.comp_apply, List.length_map]
    rw [← List.countP_eq_length_filter]
    have hone := countP_name_eq hnd ha
    have hsplit := List.length_eq_countP_add_countP
      (fun v => decide (a.name = v.name)) users
    have hcongr : users.countP
        (fun v => decide ¬(decide (a.name = v.name) = true)) =
        users.countP (fun v => decide ¬(a.name = v.name)) := by
      apply List.countP_congr
      intro v _
      by_cases h : a.name = v.name <;> simp [h]
    rw [hcongr] at hsplit
    omega
  rw [List.map_congr_left hmap, sum_map_const]

/-- C7: with pairwise-distinct identity names, each template's sequential
path enumerates exactly k·(k−1) cross-identity tests, and the concurrent
path enqueues that same set minus the pairs whose victim lacks a captured
baseline, so its job count is k·(k−1) minus the number of missing-baseline
pairs. -/
theorem C7_matrix_counts :
    ∀ (users : List User),
      (users.map User.name).Nodup →
      (seqPairs users).length = users.length * (users.length - 1) ∧
      ∀ (baselines : BaselineMap) (req : APIRequest),
        (concJobsFor users baselines req).length =
          users.length * (users.length - 1) -
            ((seqPairs users).filter fun p =>
              (lookupBaseline baselines (endpointOf req) p.2.name).isNone
            ).length := by
  intro users hnd
  refine ⟨seqPairs_length hnd, ?_⟩
  intro baselines req
  rw [concJobsFor, length_filterMap_eq_countP]
  have hsome : (seqPairs users).countP (fun p =>
      ((lookupBaseline baselines (endpointOf req) p.2.name).map fun b =>
        ({ request := req, attacker := p.1, victim := p.2,
           baseline := b } : ScanJob)).isSome) =
      (seqPairs users).countP (fun p =>
        (lookupBaseline baselines (endpointOf req) p.2.name).isSome) := by
    apply List.countP_congr
    intro p _
    cases lookupBaseline baselines (endpointOf req) p.2.name <;> simp
  rw [hsome]
  have hsplit := List.length_eq_countP_add_countP
    (fun p => (lookupBaseline baselines (endpointOf req) p.2.name).isSome)
    (seqPairs users)
  have hfilter : ((seqPairs users).filter fun p =>
      (lookupBaseline baselines (endpointOf req) p.2.name).isNone).length =
      (seqPairs users).countP (fun p => decide
        ¬((lookupBaseline baselines (endpointOf req) p.2.name).isSome =
          true)) := by
    rw [← List.countP_eq_length_filter]
    apply List.countP_congr
    intro p _
    cases lookupBaseline baselines (endpointOf req) p.2.name <;> simp
  have hlen := seqPairs_length hnd
  omega

/-- Witness for C7 at two concretely named identities and an empty
baseline map: the sequential matrix has 2·1 = 2 pairs and the concurrent
queue is empty because both pairs lack a victim baseline. -/
theorem C7_matrix_counts_witness :
    (seqPairs [wAlice, wBob]).length = 2 * (2 - 1) ∧
    (concJobsFor [wAlice, wBob] [] wReq).length =
      2 * (2 - 1) -
        ((seqPairs [wAlice, wBob]).filter fun p =>
          (lookupBaseline [] (endpointOf wReq) p.2.name).isNone).length := by
  have h := C7_matrix_counts [wAlice, wBob] (by decide)
  exact ⟨h.1, h.2 [] wReq⟩

/-! ### C8 -/

lemma filterMap_flatMap {α β γ : Type} (l : List α) (g : α → List β)
    (f : β → Option γ) :
    (l.flatMap g).filterMap f = l.flatMap fun a => (g a).filterMap f := by
  induction l with
  | nil => rfl
  | cons a t ih =>
    simp only [List.flatMap_cons, List.filterMap_append, ih]

lemma filterMap_eq_flatMap_toList {α β : Type} (l : List α)
    (f : α → Option β) :
    l.filterMap f = l.flatMap fun a => (f a).toList := by
  induction l with
  | nil => rfl
  | cons a t ih =>
    cases h : f a <;> simp [List.filterMap_cons, h, ih]

lemma flatMap_append_perm {α β : Type} (l : List α) (f g : α → List β) :
    (l.flatMap fun a => f a ++ g a).Perm (l.flatMap f ++ l.flatMap g) := by
  induction l with
  | nil => simp
  | cons a t ih =>
    simp only [List.flatMap_cons]
    refine ((ih.append_left (f a ++ g a))).trans ?_
    have e1 : (f a ++ g a) ++ (t.flatMap f ++ t.flatMap g) =
        f a ++ ((g a ++ t.flatMap f) ++ t.flatMap g) := by
      simp [List.append_assoc]
    rw [e1]
    have h2 : ((g a ++ t.flatMap f) ++ t.flatMap g).Perm
        ((t.flatMap f ++ g a) ++ t.flatMap g) :=
      List.perm_append_comm.append List.Perm.rfl
    refine (h2.append_left (f a)).trans ?_
    have e2 : f a ++ ((t.flatMap f ++ g a) ++ t.flatMap g) =
        (f a ++ t.flatMap f) ++ (g a ++ t.flatMap g) := by
      simp [List.append_assoc]
    rw [e2]

lemma concJobs_filterMap_eq_cross (buildSwap : SwapBuilder)
    (exec : ExecOracle) (baselines : BaselineMap) (users : List User)
    (req : APIRequest) :
    (concJobsFor users baselines req).filterMap
        (executeScanJob buildSwap exec) =
      crossFindingsSeq buildSwap exec baselines users req := by
  unfold concJobsFor crossFindingsSeq
  rw [List.filterMap_filterMap]
  apply List.filterMap_congr
  intro p _
  cases hl : lookupBaseline baselines (endpointOf req) p.2.name with
  | none => simp [testCrossUserWithBaseline, hl]
  | some b => simp [testCrossUserWithBaseline, hl, executeScanJob]

/-- C8: for the same identities, templates and oracles (hence the same
captured baselines and per-request responses), the concurrent mode
produces a permutation of the sequential mode's findings — the same
multiset, and in particular the same count, differing only in order. -/
theorem C8_concurrent_perm_sequential :
    ∀ (workers : Int) (reqOk : NewRequestOk) (buildSwap : SwapBuilder)
      (exec : ExecOracle) (users : List User)
      (requests : List APIRequest),
      (RunWithBaseline reqOk buildSwap exec users requests).Perm
        (RunWithBaselineConcurrent workers reqOk buildSwap exec users
          requests) := by
  intro workers reqOk buildSwap exec users requests
  show (requests.flatMap fun req =>
      crossFindingsSeq buildSwap exec
          (captureBaselines reqOk exec users requests) users req ++
        (testNoAuth reqOk exec req).toList).Perm
    ((concurrentJobs users requests
        (captureBaselines reqOk exec users requests)).filterMap
        (executeScanJob buildSwap exec) ++
      requests.filterMap (testNoAuth reqOk exec))
  have h1 : (concurrentJobs users requests
        (captureBaselines reqOk exec users requests)).filterMap
        (executeScanJob buildSwap exec) =
      requests.flatMap fun req =>
        crossFindingsSeq buildSwap exec
          (captureBaselines reqOk exec users requests) users req := by
    unfold concurrentJobs
    rw [filterMap_flatMap]
    congr 1
    funext req
    exact concJobs_filterMap_eq_cross buildSwap exec _ users req
  rw [h1, filterMap_eq_flatMap_toList]
  exact flatMap_append_perm requests _ _

/-! ### C10 -/

/-- A finding's severity is CRITICAL or HIGH. -/
def sevOK (f : Finding) : Bool :=
  f.severity == strL "CRITICAL" || f.severity == strL "HIGH"

lemma sevOK_classifyBaseline {req : APIRequest} {a v : User}
    {vb : Baseline} {resp : Response} {f : Finding}
    (h : classifyBaseline req a v vb resp = some f) : sevOK f = true := by
  simp only [classifyBaseline] at h
  split_ifs at h <;>
    (rw [Option.some.injEq] at h; subst h; simp [sevOK])

lemma sevOK_afterBaseline {buildSwap : SwapBuilder} {exec : ExecOracle}
    {req : APIRequest} {a v : User} {vb : Baseline} {f : Finding}
    (h : afterBaseline buildSwap exec req a v vb = some f) :
    sevOK f = true := by
  unfold afterBaseline at h
  cases hb : buildSwap req a v with
  | none => rw [hb, Option.none_bind] at h; simp at h
  | some r =>
    rw [hb, Option.some_bind] at h
    cases he : exec r with
    | none => rw [he, Option.none_bind] at h; simp at h
    | some resp =>
      rw [he, Option.some_bind] at h
      exact sevOK_classifyBaseline h

lemma sevOK_testCrossUserWithBaseline {buildSwap : SwapBuilder}
    {exec : ExecOracle} {req : APIRequest} {a v : User}
    {baselines : BaselineMap} {f : Finding}
    (h : testCrossUserWithBaseline buildSwap exec req a v baselines =
      some f) : sevOK f = true := by
  unfold testCrossUserWithBaseline at h
  cases hl : lookupBaseline baselines (endpointOf req) v.name with
  | none => rw [hl, Option.none_bind] at h; simp at h
  | some vb =>
    rw [hl, Option.some_bind] at h
    exact sevOK_afterBaseline h

lemma sevOK_testNoAuth {reqOk : NewRequestOk} {exec : ExecOracle}
    {req : APIRequest} {f : Finding}
    (h : testNoAuth reqOk exec req = some f) : sevOK f = true := by
  unfold testNoAuth at h
  cases hb : buildRequestNoAuth reqOk req with
  | none => rw [hb, Option.none_bind] at h; simp at h
  | some r =>
    rw [hb, Option.some_bind] at h
    cases he : exec r with
    | none => rw [he, Option.none_bind] at h; simp at h
    | some resp =>
      rw [he, Option.some_bind] at h
      split_ifs at h
      rw [Option.some.injEq] at h
      subst h
      simp [sevOK]

lemma sevOK_testCrossUserAccess {reqOk : NewRequestOk}
    {exec : ExecOracle} {req : APIRequest} {a v : User} {f : Finding}
    (h : testCrossUserAccess reqOk exec req a v = some f) :
    sevOK f = true := by
  unfold testCrossUserAccess at h
  cases hb : buildRequest reqOk req a v.params with
  | none => rw [hb, Option.none_bind] at h; simp at h
  | some r =>
    rw [hb, Option.some_bind] at h
    cases he : exec r with
    | none => rw [he, Option.none_bind] at h; simp at h
    | some resp =>
      rw [he, Option.some_bind] at h
      split_ifs at h
      rw [Option.some.injEq] at h
      subst h
      simp [sevOK]

/-- C10: every finding any scan path can emit has severity CRITICAL or
HIGH — the baseline-compared cross-identity tests, the plain cross-user
test and the no-auth test never construct a MEDIUM finding, although
MEDIUM belongs to the declared severity set tallied by the summary. -/
theorem C10_severity_closed :
    ∀ (workers : Int) (reqOk : NewRequestOk) (buildSwap : SwapBuilder)
      (exec : ExecOracle) (users : List User)
      (requests : List APIRequest),
      (RunWithBaseline reqOk buildSwap exec users requests).all sevOK =
        true ∧
      (RunWithBaselineConcurrent workers reqOk buildSwap exec users
          requests).all sevOK = true ∧
      (Run reqOk exec users requests).all sevOK = true := by
  intro workers reqOk buildSwap exec users requests
  refine ⟨?_, ?_, ?_⟩
  · rw [List.all_eq_true]
    intro f hf
    have hrw : RunWithBaseline reqOk buildSwap exec users requests =
        requests.flatMap fun req =>
          crossFindingsSeq buildSwap exec
              (captureBaselines reqOk exec users requests) users req ++
            (testNoAuth reqOk exec req).toList := rfl
    rw [hrw] at hf
    simp only [List.mem_flatMap, List.mem_append] at hf
    obtain ⟨req, _, hf2⟩ := hf
    rcases hf2 with hcross | hnoauth
    · simp only [crossFindingsSeq, List.mem_filterMap] at hcross
      obtain ⟨p, _, hp⟩ := hcross
      exact sevOK_testCrossUserWithBaseline hp
    · rw [Option.mem_toList, Option.mem_def] at hnoauth
      exact sevOK_testNoAuth hnoauth
  · rw [List.all_eq_true]
    intro f hf
    have hrw : RunWithBaselineConcurrent workers reqOk buildSwap exec
        users requests =
        (concurrentJobs users requests
            (captureBaselines reqOk exec users requests)).filterMap
            (executeScanJob buildSwap exec) ++
          requests.filterMap (testNoAuth reqOk exec) := rfl
    rw [hrw] at hf
    simp only [List.mem_append, List.mem_filterMap] at hf
    rcases hf with ⟨job, _, hj⟩ | ⟨req, _, hn⟩
    · exact sevOK_afterBaseline hj
    · exact sevOK_testNoAuth hn
  · rw [List.all_eq_true]
    intro f hf
    simp only [Run, List.mem_flatMap, List.mem_append] at hf
    obtain ⟨req, _, hf2⟩ := hf
    rcases hf2 with hcross | hnoauth
    · simp only [List.mem_filterMap] at hcross
      obtain ⟨p, _, hp⟩ := hcross
      exact sevOK_testCrossUserAccess hp
    · rw [Option.mem_toList, Option.mem_def] at hnoauth
      exact sevOK_testNoAuth hnoauth

/-! ### C9 -/

lemma lookupS_insertReplace {β : Type} (m : List (Str × β)) (k k2 : Str)
    (v : β) :
    lookupS k2 (insertReplace m k v) =
      if k = k2 then some v else lookupS k2 m := by
  induction m with
  | nil => simp [insertReplace, lookupS]
  | cons kv rest ih =>
    obtain ⟨k1, v1⟩ := kv
    by_cases h1 : k1 = k
    · subst h1
      simp only [insertReplace, if_pos rfl]
      by_cases h2 : k1 = k2 <;> simp [lookupS, h2]
    · simp only [insertReplace, if_neg h1]
      by_cases h2 : k1 = k2
      · subst h2
        have hne : ¬k = k1 := fun hh => h1 hh.symm
        simp [lookupS, hne]
      · simp [lookupS, h2, ih]

lemma lookupS_isSome_of_mem {β : Type} {m : List (Str × β)} {k : Str}
    {v : β} (h : (k, v) ∈ m) : (lookupS k m).isSome = true := by
  induction m with
  | nil => cases h
  | cons kv rest ih =>
    obtain ⟨k1, v1⟩ := kv
    rcases List.mem_cons.mp h with heq | hm
    · cases heq
      simp [lookupS]
    · by_cases h2 : k1 = k <;> simp [lookupS, h2, ih hm]

lemma lookupS_foldl_insert_of_ne {l : List (Str × Str)}
    (m : List (Str × Str)) {k : Str} (h : ∀ kv ∈ l, kv.1 ≠ k) :
    lookupS k (l.foldl (fun acc kv => insertReplace acc kv.1 kv.2) m) =
      lookupS k m := by
  induction l generalizing m with
  | nil => rfl
  | cons kv rest ih =>
    rw [List.foldl_cons, ih _ fun kv2 hm => h kv2 (by simp [hm]),
      lookupS_insertReplace]
    exact if_neg (h kv (by simp))

lemma lookupS_foldl_insert_mem {l : List (Str × Str)}
    (m : List (Str × Str)) {k v : Str}
    (hnd : (l.map Prod.fst).Nodup) (hmem : (k, v) ∈ l) :
    lookupS k (l.foldl (fun acc kv => insertReplace acc kv.1 kv.2) m) =
      some v := by
  induction l generalizing m with
  | nil => cases hmem
  | cons kv rest ih =>
    rw [List.foldl_cons]
    rcases List.mem_cons.mp hmem with heq | hmem2
    · cases heq
      have hk : ∀ kv2 ∈ rest, kv2.1 ≠ k := by
        intro kv2 hm2 hk2
        have hin : k ∈ rest.map Prod.fst := by
          rw [← hk2]
          exact List.mem_map_of_mem _ hm2
        rw [List.map_cons] at hnd
        exact (List.nodup_cons.mp hnd).1 hin
      rw [lookupS_foldl_insert_of_ne _ hk, lookupS_insertReplace,
        if_pos rfl]
    · rw [List.map_cons] at hnd
      exact ih _ (List.nodup_cons.mp hnd).2 hmem2

lemma lookupS_foldl_guard_of_ne {u : List (Str × Str)}
    {l : List (Str × Str)} (m : List (Str × Str)) {k : Str}
    (h : ∀ kv ∈ l, (lookupS kv.1 u).isSome = false → kv.1 ≠ k) :
    lookupS k (l.foldl
      (fun acc kv =>
        if (lookupS kv.1 u).isSome then acc
        else insertReplace acc kv.1 kv.2) m) = lookupS k m := by
  induction l generalizing m with
  | nil => rfl
  | cons kv rest ih =>
    rw [List.foldl_cons, ih _ fun kv2 hm2 => h kv2 (by simp [hm2])]
    by_cases hg : (lookupS kv.1 u).isSome = true
    · rw [if_pos hg]
    · rw [if_neg hg, lookupS_insertReplace,
        if_neg (h kv (by simp) (by simpa using hg))]

lemma lookupS_foldl_guard_mem {u : List (Str × Str)}
    {l : List (Str × Str)} (m : List (Str × Str)) {k v : Str}
    (hnd : (l.map Prod.fst).Nodup) (hmem : (k, v) ∈ l)
    (hg : (lookupS k u).isSome = false) :
    lookupS k (l.foldl
      (fun acc kv =>
        if (lookupS kv.1 u).isSome then acc
        else insertReplace acc kv.1 kv.2) m) = some v := by
  induction l generalizing m with
  | nil => cases hmem
  | cons kv rest ih =>
    rw [List.foldl_cons]
    rcases List.mem_cons.mp hmem with heq | hmem2
    · cases heq
      have hk : ∀ kv2 ∈ rest, (lookupS kv2.1 u).isSome = false →
          kv2.1 ≠ k := by
        intro kv2 hm2 _ hk2
        have hin : k ∈ rest.map Prod.fst := by
          rw [← hk2]
          exact List.mem_map_of_mem _ hm2
        rw [List.map_cons] at hnd
        exact (List.nodup_cons.mp hnd).1 hin
      rw [lookupS_foldl_guard_of_ne _ hk, if_neg (by simp [hg]),
        lookupS_insertReplace, if_pos rfl]
    · rw [List.map_cons] at hnd
      exact ih _ (List.nodup_cons.mp hnd).2 hmem2

lemma foldl_headerSet_eq_insert {l : List (Str × Str)}
    (m : List (Str × Str))
    (hc : ∀ kv ∈ l, canonicalMIMEHeaderKey kv.1 = kv.1) :
    l.foldl (fun acc kv => headerSet acc kv.1 kv.2) m =
      l.foldl (fun acc kv => insertReplace acc kv.1 kv.2) m := by
  induction l generalizing m with
  | nil => rfl
  | cons kv rest ih =>
    rw [List.foldl_cons, List.foldl_cons,
      ih _ fun kv2 h2 => hc kv2 (by simp [h2])]
    congr 1
    unfold headerSet
    rw [hc kv (by simp)]

lemma foldl_headerGuard_eq_insert {u : List (Str × Str)}
    {l : List (Str × Str)} (m : List (Str × Str))
    (hc : ∀ kv ∈ l, canonicalMIMEHeaderKey kv.1 = kv.1) :
    l.foldl
        (fun acc kv =>
          if (lookupS kv.1 u).isSome then acc
          else headerSet acc kv.1 kv.2) m =
      l.foldl
        (fun acc kv =>
          if (lookupS kv.1 u).isSome then acc
          else insertReplace acc kv.1 kv.2) m := by
  induction l generalizing m with
  | nil => rfl
  | cons kv rest ih =>
    rw [List.foldl_cons, List.foldl_cons,
      ih _ fun kv2 h2 => hc kv2 (by simp [h2])]
    congr 1
    by_cases hg : (lookupS kv.1 u).isSome = true
    · rw [if_pos hg, if_pos hg]
    · rw [if_neg hg, if_neg hg]
      unfold headerSet
      rw [hc kv (by simp)]

lemma headerGet_buildHeaders_user {user : User} {t : List (Str × Str)}
    {k v : Str}
    (hcu : ∀ kv ∈ user.headers, canonicalMIMEHeaderKey kv.1 = kv.1)
    (hct : ∀ kv ∈ t, canonicalMIMEHeaderKey kv.1 = kv.1)
    (hnd : (user.headers.map Prod.fst).Nodup)
    (hmem : (k, v) ∈ user.headers) :
    headerGet (buildHeaders user t) k = some v := by
  have hck : canonicalMIMEHeaderKey k = k := hcu (k, v) hmem
  unfold headerGet buildHeaders
  rw [hck, foldl_headerGuard_eq_insert _ hct, lookupS_foldl_guard_of_ne]
  · rw [foldl_headerSet_eq_insert _ hcu]
    exact lookupS_foldl_insert_mem _ hnd hmem
  · intro kv _ hg hk
    rw [hk, lookupS_isSome_of_mem hmem] at hg
    simp at hg

lemma headerGet_buildHeaders_tmpl {user : User} {t : List (Str × Str)}
    {k v : Str}
    (hct : ∀ kv ∈ t, canonicalMIMEHeaderKey kv.1 = kv.1)
    (hndt : (t.map Prod.fst).Nodup) (hmem : (k, v) ∈ t)
    (habs : lookupS k user.headers = none) :
    headerGet (buildHeaders user t) k = some v := by
  have hck : canonicalMIMEHeaderKey k = k := hct (k, v) hmem
  unfold headerGet buildHeaders
  rw [hck, foldl_headerGuard_eq_insert _ hct]
  exact lookupS_foldl_guard_mem _ hndt hmem (by simp [habs])

/-- C9 counterexample: `http.Header.Set` canonicalises header names while
the template-header guard compares raw map keys, so an identity header
spelled `authorization` is overwritten by a template header spelled
`Authorization`: the built request carries the template's value B, not
the identity's value A, even though the identity defines that header. -/
theorem C9_counterexample :
    (buildRequest (fun _ _ => true)
        { method := strL "GET", url := strL "/x",
          headers := [(strL "Authorization", strL "B")], body := [],
          params := [] }
        { name := strL "u",
          headers := [(strL "authorization", strL "A")], params := [] }
        []).map (fun r => headerGet r.headers (strL "authorization")) =
        some (some (strL "B")) ∧
    (buildRequest (fun _ _ => true)
        { method := strL "GET", url := strL "/x",
          headers := [(strL "Authorization", strL "B")], body := [],
          params := [] }
        { name := strL "u",
          headers := [(strL "authorization", strL "A")], params := [] }
        []).map (fun r => headerGet r.headers (strL "authorization")) ≠
        some (some (strL "A")) := by
  constructor
  · decide
  · decide

/-- C9 amended: identity headers take precedence over template headers
provided every header name in both maps is written in its canonical HTTP
form and each map binds distinct names — then every header the identity
defines keeps the identity's value in the built request, and a template
header is set (with its own value) exactly when its name is not bound by
the identity.  (With a non-canonical spelling the raw-key guard misses
and the template's `Header.Set` overwrites the identity's, see the
counterexample.) -/
theorem C9_amended_header_precedence :
    ∀ (reqOk : NewRequestOk) (req : APIRequest) (user : User)
      (params : List (Str × Str)) (r : HttpRequest),
      (∀ kv ∈ user.headers, canonicalMIMEHeaderKey kv.1 = kv.1) →
      (∀ kv ∈ req.headers, canonicalMIMEHeaderKey kv.1 = kv.1) →
      (user.headers.map Prod.fst).Nodup →
      (req.headers.map Prod.fst).Nodup →
      buildRequest reqOk req user params = some r →
      (∀ k v, (k, v) ∈ user.headers → headerGet r.headers k = some v) ∧
      (∀ k v, (k, v) ∈ req.headers → lookupS k user.headers = none →
        headerGet r.headers k = some v) := by
  intro reqOk req user params r hcu hct hndu hndt hbuild
  simp only [buildRequest] at hbuild
  split_ifs at hbuild
  rw [Option.some.injEq] at hbuild
  subst hbuild
  refine ⟨fun k v hm => ?_, fun k v hm habs => ?_⟩
  · exact headerGet_buildHeaders_user hcu hct hndu hm
  · exact headerGet_buildHeaders_tmpl hct hndt hm habs

/-- Fixture identity with one canonical header, for the C9 witness. -/
def w9User : User :=
  { name := strL "u", headers := [(strL "X-Auth", strL "A")],
    params := [] }

/-- Fixture template that tries to override `X-Auth` and adds `Accept`,
for the C9 witness. -/
def w9Req : APIRequest :=
  { method := strL "GET", url := strL "/x",
    headers := [(strL "X-Auth", strL "B"), (strL "Accept", strL "C")],
    body := [], params := [] }

/-- Witness for the amended C9 at canonical header names: the identity's
`X-Auth: A` survives the template's `X-Auth: B`, and the template-only
`Accept: C` is set. -/
theorem C9_amended_header_precedence_witness :
    ∃ r, buildRequest (fun _ _ => true) w9Req w9User [] = some r ∧
      headerGet r.headers (strL "X-Auth") = some (strL "A") ∧
      headerGet r.headers (strL "Accept") = some (strL "C") := by
  cases hb : buildRequest (fun _ _ => true) w9Req w9User [] with
  | none => exact absurd hb (by decide)
  | some r =>
    have h := C9_amended_header_precedence (fun _ _ => true) w9Req w9User
      [] r (by decide) (by decide) (by decide) (by decide) hb
    exact ⟨r, rfl, h.1 (strL "X-Auth") (strL "A") (by decide),
      h.2 (strL "Accept") (strL "C") (by decide) (by decide)⟩
